import Mathlib

/-!
Verification of the secret-loading routine of `website/secrets_plugin.py`.

The module resolves a cloud provider (AWS or Azure) from environment markers
or an explicit configuration override, fetches secrets from that provider's
store, and merges them into the application configuration mapping.

The embedding models:
- the process environment as a function from variable names to optional values;
- the application configuration `app.config` as an association list from
  string keys to string values, with Python `dict.get` / item-assignment
  semantics (`cfgGet` / `cfgSet`);
- the provider SDKs (`boto3`, `azure.identity`, `azure.keyvault.secrets`) as
  explicit "world" records recording, for each outbound call, either a result
  or an exception (`Except Unit _`); a failed import or client construction is
  a boolean in the world.  Every `except`-swallowed fault thus becomes an
  explicit branch of the embedded function.
-/

namespace SecretsPlugin

/-- Process environment: `os.getenv`, `none` when the variable is unset. -/
abbrev Env : Type := String → Option String

/-- The configuration mapping `app.config`, as an association list. -/
abbrev Config : Type := List (String × String)

/-- `app.config.get(k)`: value at the first matching key, `none` if absent. -/
def cfgGet : Config → String → Option String
  | [], _ => none
  | p :: rest, k => if p.1 = k then some p.2 else cfgGet rest k

/-- `app.config[k] = v`: overwrite the first binding of `k`, or append. -/
def cfgSet : Config → String → String → Config
  | [], k, v => [(k, v)]
  | p :: rest, k, v => if p.1 = k then (k, v) :: rest else p :: cfgSet rest k v

/-- Sequential merge of key/value pairs into the configuration,
the loop `for key, value in pairs: app.config[key] = value`. -/
def mergeAll (cfg : Config) (pairs : List (String × String)) : Config :=
  pairs.foldl (fun c p => cfgSet c p.1 p.2) cfg

/-- `_identify_provider`: infer the provider from environment markers.
`LAMBDA_TASK_ROOT` set means AWS; otherwise `WEBSITE_INSTANCE_ID` set means
Azure; otherwise a `ValueError` (the `ProviderUndetectable` error). -/
def identify_provider (env : Env) : Except String String :=
  let is_aws := (env "LAMBDA_TASK_ROOT").isSome
  if is_aws then
    Except.ok "aws"
  else
    let is_azure := (env "WEBSITE_INSTANCE_ID").isSome
    if is_azure then
      Except.ok "azure"
    else
      Except.error "Unable to identify the cloud provider to fetch the credentials"

/-- The AWS `get_secret_value` response: `secretString` is the
`"SecretString"` field, `none` when the field is absent. -/
structure AwsResponse where
  secretString : Option String
  deriving DecidableEq

/-- The AWS side of the outside world as seen by `_fetch_aws_secrets`:
whether `import boto3` succeeds, whether `boto3.client("secretsmanager")`
succeeds, the outcome of `get_secret_value` per secret id, and the outcome
of `json.loads` per payload (an error covers both malformed JSON and a
non-object payload, whose `.items()` raises). -/
structure AwsWorld where
  importOk : Bool
  clientOk : Bool
  getSecretValue : String → Except Unit AwsResponse
  parseJson : String → Except Unit (List (String × String))

/-- `_fetch_aws_secrets(app, secret_name)`: one `get_secret_value` call; if
the response has a truthy `"SecretString"`, parse it as JSON and merge every
item into the configuration.  Every exception is caught and swallowed, so
each fault branch returns the configuration unchanged. -/
def fetch_aws_secrets (w : AwsWorld) (cfg : Config) (secret_name : String) : Config :=
  if w.importOk then
    if w.clientOk then
      match w.getSecretValue secret_name with
      | Except.error _ => cfg
      | Except.ok response =>
        match response.secretString with
        | some s =>
          if s ≠ "" then
            match w.parseJson s with
            | Except.error _ => cfg
            | Except.ok pairs => mergeAll cfg pairs
          else cfg
        | none => cfg
    else cfg
  else cfg

/-- An element of `list_properties_of_secrets()`: only the name is used. -/
structure SecretProperties where
  name : Option String
  deriving DecidableEq

/-- A `get_secret` result: its name and value attributes. -/
structure KeyVaultSecret where
  name : Option String
  value : Option String
  deriving DecidableEq

/-- The Azure side of the outside world as seen by `_fetch_azure_secrets`:
whether the `azure.*` imports succeed, whether credential and client
construction succeed, the outcome of the vault listing, and the outcome of
`get_secret` per secret name. -/
structure AzureWorld where
  importOk : Bool
  clientOk : Bool
  listSecrets : Except Unit (List SecretProperties)
  getSecret : String → Except Unit KeyVaultSecret

/-- The `for secret_prop in secrets` loop of `_fetch_azure_secrets`: for each
listed property with a truthy name, fetch the secret; if the fetch raises,
the exception aborts the loop (and is swallowed by the outer handler), so the
configuration keeps exactly the entries merged before the fault; if the
fetched secret has a truthy name and a non-`None` value, write it. -/
def azure_merge_loop (w : AzureWorld) : Config → List SecretProperties → Config
  | cfg, [] => cfg
  | cfg, prop :: rest =>
    match prop.name with
    | some n =>
      if n ≠ "" then
        match w.getSecret n with
        | Except.error _ => cfg
        | Except.ok secret =>
          match secret.name, secret.value with
          | some sn, some v =>
            if sn ≠ "" then azure_merge_loop w (cfgSet cfg sn v) rest
            else azure_merge_loop w cfg rest
          | some _, none => azure_merge_loop w cfg rest
          | none, _ => azure_merge_loop w cfg rest
      else azure_merge_loop w cfg rest
    | none => azure_merge_loop w cfg rest

/-- `_fetch_azure_secrets(app)`: re-reads `SECRET_NAME` from the
configuration and returns unchanged when it is falsy (`None` or empty);
otherwise lists the vault and merges each listed secret.  All exceptions,
including import failure, are swallowed. -/
def fetch_azure_secrets (w : AzureWorld) (cfg : Config) : Config :=
  if w.importOk then
    match cfgGet cfg "SECRET_NAME" with
    | none => cfg
    | some key_vault_name =>
      if key_vault_name = "" then cfg
      else if w.clientOk then
        match w.listSecrets with
        | Except.error _ => cfg
        | Except.ok secrets => azure_merge_loop w cfg secrets
      else cfg
  else cfg

/-- `init_secret_manager(app)`: return immediately when `SECRET_NAME` is
absent; otherwise take the provider from `SECRET_PROVIDER` or, when that is
absent, from `_identify_provider()` (whose `ValueError` propagates to the
caller, hence the `Except`); dispatch to the AWS or Azure fetcher, and fall
through silently on any other provider value. -/
def init_secret_manager (env : Env) (aw : AwsWorld) (zw : AzureWorld)
    (cfg : Config) : Except String Config :=
  match cfgGet cfg "SECRET_NAME" with
  | none => Except.ok cfg
  | some secret_name =>
    let providerE : Except String String :=
      match cfgGet cfg "SECRET_PROVIDER" with
      | some p => Except.ok p
      | none => identify_provider env
    match providerE with
    | Except.error e => Except.error e
    | Except.ok provider =>
      if provider = "aws" then Except.ok (fetch_aws_secrets aw cfg secret_name)
      else if provider = "azure" then Except.ok (fetch_azure_secrets zw cfg)
      else Except.ok cfg

/-! ### Delivered secret keys

A key counts as delivered by a provider response when the code could write
under it: for AWS, a key of the parsed JSON object of a successful
`get_secret_value` response; for Azure, the (truthy) name attribute of a
successful `get_secret` response carrying a non-`None` value. -/

def awsDeliveredKey (w : AwsWorld) (secret_name k : String) : Prop :=
  ∃ (resp : AwsResponse) (s : String) (pairs : List (String × String)) (v : String),
    w.getSecretValue secret_name = Except.ok resp ∧
    resp.secretString = some s ∧
    w.parseJson s = Except.ok pairs ∧
    (k, v) ∈ pairs

def azureDeliveredKey (w : AzureWorld) (k : String) : Prop :=
  ∃ (n : String) (secret : KeyVaultSecret) (v : String),
    w.getSecret n = Except.ok secret ∧
    secret.name = some k ∧
    secret.value = some v

/-! ### Concrete fixtures

Small concrete environments, worlds and configurations used to evaluate the
verified statements on closed inputs. -/

/-- An environment with no variable set: neither marker present. -/
def envNone : Env := fun _ => none

/-- An environment where every variable is set: both markers present. -/
def envBoth : Env := fun _ => some "1"

/-- An AWS world whose every outbound call raises. -/
def deadAws : AwsWorld :=
  ⟨true, true, fun _ => Except.error (), fun _ => Except.error ()⟩

/-- An AWS world delivering a payload that parses to the JSON object with
entries A=1 and B=2. -/
def jsonAws : AwsWorld :=
  ⟨true, true, fun _ => Except.ok ⟨some "payload"⟩,
   fun s => if s = "payload" then Except.ok [("A", "1"), ("B", "2")]
            else Except.error ()⟩

/-- An Azure world listing secrets x and y with values 1 and 2. -/
def xyAzure : AzureWorld :=
  ⟨true, true, Except.ok [⟨some "x"⟩, ⟨some "y"⟩],
   fun n =>
     if n = "x" then Except.ok ⟨some "x", some "1"⟩
     else if n = "y" then Except.ok ⟨some "y", some "2"⟩
     else Except.error ()⟩

/-- An Azure world listing secrets x and y where fetching x succeeds and
fetching y raises: the loop merges x and then aborts. -/
def haltAzure : AzureWorld :=
  ⟨true, true, Except.ok [⟨some "x"⟩, ⟨some "y"⟩],
   fun n =>
     if n = "x" then Except.ok ⟨some "x", some "1"⟩
     else Except.error ()⟩

/-- The value oracle matching `xyAzure`: x holds 1, y holds 2. -/
def fxy : String → String := fun n => if n = "x" then "1" else "2"

/-- A configuration with no `SECRET_NAME`. -/
def cfgPlain : Config := [("a", "b")]

/-- A configuration naming a vault, with no provider override. -/
def cfgVaultOnly : Config := [("SECRET_NAME", "vault")]

/-- A configuration naming a vault with the Azure provider override. -/
def cfgVaultAzure : Config :=
  [("SECRET_NAME", "vault"), ("SECRET_PROVIDER", "azure")]

/-- A vault/Azure configuration with an unrelated extra key. -/
def cfgOther : Config :=
  [("SECRET_NAME", "vault"), ("SECRET_PROVIDER", "azure"), ("other", "keep")]

/-- A configuration whose `SECRET_NAME` is the empty string, provider aws. -/
def cfgEmptyAws : Config :=
  [("SECRET_NAME", ""), ("SECRET_PROVIDER", "aws"), ("k", "v")]

/-- A configuration whose `SECRET_NAME` is the empty string, provider azure. -/
def cfgEmptyAzure : Config :=
  [("SECRET_NAME", ""), ("SECRET_PROVIDER", "azure"), ("k", "v")]

/-- A configuration with an unrecognized provider override. -/
def cfgGcp : Config :=
  [("SECRET_NAME", "vault"), ("SECRET_PROVIDER", "gcp"), ("k", "v")]

/-! ### Basic lemmas on the configuration mapping -/

theorem cfgGet_cfgSet_self (cfg : Config) (k v : String) :
    cfgGet (cfgSet cfg k v) k = some v := by
  induction cfg with
  | nil => simp [cfgSet, cfgGet]
  | cons p rest ih =>
    by_cases h : p.1 = k
    · simp [cfgSet, cfgGet, h]
    · simp [cfgSet, cfgGet, h, ih]

theorem cfgGet_cfgSet_ne (cfg : Config) (k v : String) (k' : String)
    (h : k' ≠ k) : cfgGet (cfgSet cfg k v) k' = cfgGet cfg k' := by
  induction cfg with
  | nil => simp [cfgSet, cfgGet, Ne.symm h]
  | cons p rest ih =>
    by_cases hp : p.1 = k
    · simp [cfgSet, cfgGet, hp, Ne.symm h]
    · by_cases hp' : p.1 = k'
      · simp [cfgSet, cfgGet, hp, hp', h]
      · simp [cfgSet, cfgGet, hp, hp', ih]

theorem cfgGet_cfgSet_isSome (cfg : Config) (k v k' : String)
    (h : (cfgGet cfg k').isSome) : (cfgGet (cfgSet cfg k v) k').isSome := by
  by_cases hk : k' = k
  · subst hk; simp [cfgGet_cfgSet_self]
  · rwa [cfgGet_cfgSet_ne cfg k v k' hk]

theorem mergeAll_nil (cfg : Config) : mergeAll cfg [] = cfg := rfl

theorem mergeAll_cons (cfg : Config) (p : String × String)
    (ps : List (String × String)) :
    mergeAll cfg (p :: ps) = mergeAll (cfgSet cfg p.1 p.2) ps := rfl

theorem mergeAll_get_of_not_mem (pairs : List (String × String)) :
    ∀ (cfg : Config) (k : String), k ∉ pairs.map Prod.fst →
      cfgGet (mergeAll cfg pairs) k = cfgGet cfg k := by
  induction pairs with
  | nil => intro cfg k _; rfl
  | cons p ps ih =>
    intro cfg k hk
    rw [mergeAll_cons]
    have hk1 : k ≠ p.1 := by
      intro h; exact hk (by simp [h])
    have hk2 : k ∉ ps.map Prod.fst := by
      intro h; exact hk (by simp [h])
    rw [ih _ k hk2, cfgGet_cfgSet_ne _ _ _ _ hk1]

theorem mergeAll_isSome (pairs : List (String × String)) :
    ∀ (cfg : Config) (k : String), (cfgGet cfg k).isSome →
      (cfgGet (mergeAll cfg pairs) k).isSome := by
  induction pairs with
  | nil => intro cfg k h; exact h
  | cons p ps ih =>
    intro cfg k h
    rw [mergeAll_cons]
    exact ih _ k (cfgGet_cfgSet_isSome cfg p.1 p.2 k h)

/-! ### Step lemmas for the embedded control flow -/

theorem fetch_aws_merges {w : AwsWorld} {secret_name s : String}
    {resp : AwsResponse} {pairs : List (String × String)}
    (hi : w.importOk = true) (hc : w.clientOk = true)
    (hg : w.getSecretValue secret_name = Except.ok resp)
    (hss : resp.secretString = some s) (hs : s ≠ "")
    (hp : w.parseJson s = Except.ok pairs) (cfg : Config) :
    fetch_aws_secrets w cfg secret_name = mergeAll cfg pairs := by
  simp [fetch_aws_secrets, hi, hc, hg, hss, hs, hp]

/-- Every run of the AWS fetcher either leaves the configuration unchanged
(a swallowed fault, a missing or falsy payload) or merges exactly the pairs
parsed from the delivered payload. -/
theorem fetch_aws_cases (w : AwsWorld) (cfg : Config) (secret_name : String) :
    fetch_aws_secrets w cfg secret_name = cfg ∨
    ∃ (resp : AwsResponse) (s : String) (pairs : List (String × String)),
      w.getSecretValue secret_name = Except.ok resp ∧
      resp.secretString = some s ∧ s ≠ "" ∧
      w.parseJson s = Except.ok pairs ∧
      fetch_aws_secrets w cfg secret_name = mergeAll cfg pairs := by
  by_cases hi : w.importOk
  · by_cases hc : w.clientOk
    · cases hg : w.getSecretValue secret_name with
      | error e => exact Or.inl (by simp [fetch_aws_secrets, hi, hc, hg])
      | ok resp =>
        cases hss : resp.secretString with
        | none => exact Or.inl (by simp [fetch_aws_secrets, hi, hc, hg, hss])
        | some s =>
          by_cases hs : s = ""
          · exact Or.inl (by simp [fetch_aws_secrets, hi, hc, hg, hss, hs])
          · cases hp : w.parseJson s with
            | error e =>
              exact Or.inl (by simp [fetch_aws_secrets, hi, hc, hg, hss, hs, hp])
            | ok pairs =>
              exact Or.inr ⟨resp, s, pairs, rfl, hss, hs, hp,
                fetch_aws_merges (by simpa using hi) (by simpa using hc)
                  hg hss hs hp cfg⟩
    · exact Or.inl (by simp [fetch_aws_secrets, hc])
  · exact Or.inl (by simp [fetch_aws_secrets, hi])

theorem azure_merge_loop_nil (w : AzureWorld) (cfg : Config) :
    azure_merge_loop w cfg [] = cfg := rfl

theorem azure_merge_loop_cons_noname {prop : SecretProperties}
    (hn : prop.name = none) (w : AzureWorld) (cfg : Config)
    (rest : List SecretProperties) :
    azure_merge_loop w cfg (prop :: rest) = azure_merge_loop w cfg rest := by
  simp [azure_merge_loop, hn]

theorem azure_merge_loop_cons_emptyname {prop : SecretProperties}
    (hn : prop.name = some "") (w : AzureWorld) (cfg : Config)
    (rest : List SecretProperties) :
    azure_merge_loop w cfg (prop :: rest) = azure_merge_loop w cfg rest := by
  simp [azure_merge_loop, hn]

theorem azure_merge_loop_cons_fault {w : AzureWorld} {prop : SecretProperties}
    {n : String} {e : Unit} (hn : prop.name = some n) (hne : n ≠ "")
    (hg : w.getSecret n = Except.error e) (cfg : Config)
    (rest : List SecretProperties) :
    azure_merge_loop w cfg (prop :: rest) = cfg := by
  simp [azure_merge_loop, hn, hne, hg]

theorem azure_merge_loop_cons_skip {w : AzureWorld} {prop : SecretProperties}
    {n : String} {secret : KeyVaultSecret} (hn : prop.name = some n)
    (hne : n ≠ "") (hg : w.getSecret n = Except.ok secret)
    (hskip : secret.name = none ∨ secret.name = some "" ∨ secret.value = none)
    (cfg : Config) (rest : List SecretProperties) :
    azure_merge_loop w cfg (prop :: rest) = azure_merge_loop w cfg rest := by
  rcases hskip with h | h | h
  · cases hv : secret.value <;> simp [azure_merge_loop, hn, hne, hg, h, hv]
  · cases hv : secret.value <;> simp [azure_merge_loop, hn, hne, hg, h, hv]
  · cases hsn : secret.name <;> simp [azure_merge_loop, hn, hne, hg, h, hsn]

theorem azure_merge_loop_cons_write {w : AzureWorld} {prop : SecretProperties}
    {n sn v : String} {secret : KeyVaultSecret} (hn : prop.name = some n)
    (hne : n ≠ "") (hg : w.getSecret n = Except.ok secret)
    (hsn : secret.name = some sn) (hsne : sn ≠ "")
    (hv : secret.value = some v) (cfg : Config)
    (rest : List SecretProperties) :
    azure_merge_loop w cfg (prop :: rest) =
      azure_merge_loop w (cfgSet cfg sn v) rest := by
  simp [azure_merge_loop, hn, hne, hg, hsn, hsne, hv]

/-! ### Structural lemmas for the Azure loop and fetcher -/

theorem azure_merge_loop_exists_mergeAll (w : AzureWorld) :
    ∀ (props : List SecretProperties) (cfg : Config),
      ∃ pairs : List (String × String),
        azure_merge_loop w cfg props = mergeAll cfg pairs := by
  intro props
  induction props with
  | nil => exact fun cfg => ⟨[], rfl⟩
  | cons prop rest ih =>
    intro cfg
    cases hn : prop.name with
    | none => rw [azure_merge_loop_cons_noname hn]; exact ih cfg
    | some n =>
      by_cases hne : n = ""
      · rw [azure_merge_loop_cons_emptyname (by rw [hn, hne])]
        exact ih cfg
      · cases hg : w.getSecret n with
        | error e =>
          rw [azure_merge_loop_cons_fault hn hne hg]
          exact ⟨[], rfl⟩
        | ok secret =>
          cases hsn : secret.name with
          | none =>
            rw [azure_merge_loop_cons_skip hn hne hg (Or.inl hsn)]
            exact ih cfg
          | some sn =>
            cases hv : secret.value with
            | none =>
              rw [azure_merge_loop_cons_skip hn hne hg (Or.inr (Or.inr hv))]
              exact ih cfg
            | some v =>
              by_cases hsne : sn = ""
              · rw [azure_merge_loop_cons_skip hn hne hg
                  (Or.inr (Or.inl (by rw [hsn, hsne])))]
                exact ih cfg
              · rw [azure_merge_loop_cons_write hn hne hg hsn hsne hv]
                obtain ⟨pairs, hp⟩ := ih (cfgSet cfg sn v)
                exact ⟨(sn, v) :: pairs, by rw [mergeAll_cons]; exact hp⟩

theorem azure_merge_loop_get_of_not_delivered (w : AzureWorld) (k : String)
    (h : ¬ azureDeliveredKey w k) :
    ∀ (props : List SecretProperties) (cfg : Config),
      cfgGet (azure_merge_loop w cfg props) k = cfgGet cfg k := by
  intro props
  induction props with
  | nil => exact fun cfg => rfl
  | cons prop rest ih =>
    intro cfg
    cases hn : prop.name with
    | none => rw [azure_merge_loop_cons_noname hn]; exact ih cfg
    | some n =>
      by_cases hne : n = ""
      · rw [azure_merge_loop_cons_emptyname (by rw [hn, hne])]
        exact ih cfg
      · cases hg : w.getSecret n with
        | error e => rw [azure_merge_loop_cons_fault hn hne hg]
        | ok secret =>
          cases hsn : secret.name with
          | none =>
            rw [azure_merge_loop_cons_skip hn hne hg (Or.inl hsn)]
            exact ih cfg
          | some sn =>
            cases hv : secret.value with
            | none =>
              rw [azure_merge_loop_cons_skip hn hne hg (Or.inr (Or.inr hv))]
              exact ih cfg
            | some v =>
              by_cases hsne : sn = ""
              · rw [azure_merge_loop_cons_skip hn hne hg
                  (Or.inr (Or.inl (by rw [hsn, hsne])))]
                exact ih cfg
              · rw [azure_merge_loop_cons_write hn hne hg hsn hsne hv]
                have hk : k ≠ sn := fun hk =>
                  h ⟨n, secret, v, hg, hk ▸ hsn, hv⟩
                rw [ih (cfgSet cfg sn v), cfgGet_cfgSet_ne _ _ _ _ hk]

theorem fetch_azure_cases (w : AzureWorld) (cfg : Config) :
    fetch_azure_secrets w cfg = cfg ∨
    ∃ secrets : List SecretProperties,
      w.listSecrets = Except.ok secrets ∧
      fetch_azure_secrets w cfg = azure_merge_loop w cfg secrets := by
  by_cases hi : w.importOk
  · cases hk : cfgGet cfg "SECRET_NAME" with
    | none => exact Or.inl (by simp [fetch_azure_secrets, hi, hk])
    | some kv =>
      by_cases hkv : kv = ""
      · exact Or.inl (by simp [fetch_azure_secrets, hi, hk, hkv])
      · by_cases hc : w.clientOk
        · cases hl : w.listSecrets with
          | error e =>
            exact Or.inl (by simp [fetch_azure_secrets, hi, hk, hkv, hl])
          | ok secrets =>
            exact Or.inr ⟨secrets, rfl,
              by simp [fetch_azure_secrets, hi, hk, hkv, hc, hl]⟩
        · exact Or.inl (by simp [fetch_azure_secrets, hi, hk, hkv, hc])
  · exact Or.inl (by simp [fetch_azure_secrets, hi])

theorem fetch_azure_exists_mergeAll (w : AzureWorld) (cfg : Config) :
    ∃ pairs : List (String × String),
      fetch_azure_secrets w cfg = mergeAll cfg pairs := by
  rcases fetch_azure_cases w cfg with h | ⟨secrets, _, h⟩
  · exact ⟨[], h⟩
  · rw [h]; exact azure_merge_loop_exists_mergeAll w secrets cfg

theorem fetch_aws_exists_mergeAll (w : AwsWorld) (cfg : Config)
    (secret_name : String) :
    ∃ pairs : List (String × String),
      fetch_aws_secrets w cfg secret_name = mergeAll cfg pairs := by
  rcases fetch_aws_cases w cfg secret_name with h | ⟨_, _, pairs, _, _, _, _, h⟩
  · exact ⟨[], h⟩
  · exact ⟨pairs, h⟩

theorem fetch_aws_get_of_not_delivered (w : AwsWorld) (cfg : Config)
    (secret_name k : String) (h : ¬ awsDeliveredKey w secret_name k) :
    cfgGet (fetch_aws_secrets w cfg secret_name) k = cfgGet cfg k := by
  rcases fetch_aws_cases w cfg secret_name with heq | ⟨resp, s, pairs, hg, hss, hs, hp, heq⟩
  · rw [heq]
  · rw [heq]
    apply mergeAll_get_of_not_mem
    intro hmem
    rcases List.mem_map.mp hmem with ⟨q, hq, hq1⟩
    exact h ⟨resp, s, pairs, q.2, hg, hss, hp, by rw [← hq1]; simpa using hq⟩

theorem fetch_azure_get_of_not_delivered (w : AzureWorld) (cfg : Config)
    (k : String) (h : ¬ azureDeliveredKey w k) :
    cfgGet (fetch_azure_secrets w cfg) k = cfgGet cfg k := by
  rcases fetch_azure_cases w cfg with heq | ⟨secrets, _, heq⟩
  · rw [heq]
  · rw [heq]
    exact azure_merge_loop_get_of_not_delivered w k h secrets cfg

theorem fetch_aws_isSome (w : AwsWorld) (cfg : Config) (secret_name k : String)
    (h : (cfgGet cfg k).isSome) :
    (cfgGet (fetch_aws_secrets w cfg secret_name) k).isSome := by
  obtain ⟨pairs, hp⟩ := fetch_aws_exists_mergeAll w cfg secret_name
  rw [hp]
  exact mergeAll_isSome pairs cfg k h

theorem fetch_azure_isSome (w : AzureWorld) (cfg : Config) (k : String)
    (h : (cfgGet cfg k).isSome) :
    (cfgGet (fetch_azure_secrets w cfg) k).isSome := by
  obtain ⟨pairs, hp⟩ := fetch_azure_exists_mergeAll w cfg
  rw [hp]
  exact mergeAll_isSome pairs cfg k h

/-! ### Unfolding lemmas for the orchestrator -/

theorem init_no_name {cfg : Config} (env : Env) (aw : AwsWorld)
    (zw : AzureWorld) (h : cfgGet cfg "SECRET_NAME" = none) :
    init_secret_manager env aw zw cfg = Except.ok cfg := by
  simp [init_secret_manager, h]

theorem init_with_provider {cfg : Config} {secret_name p : String} (env : Env)
    (aw : AwsWorld) (zw : AzureWorld)
    (hn : cfgGet cfg "SECRET_NAME" = some secret_name)
    (hp : cfgGet cfg "SECRET_PROVIDER" = some p) :
    init_secret_manager env aw zw cfg =
      (if p = "aws" then Except.ok (fetch_aws_secrets aw cfg secret_name)
       else if p = "azure" then Except.ok (fetch_azure_secrets zw cfg)
       else Except.ok cfg) := by
  simp [init_secret_manager, hn, hp]

theorem init_inferred {cfg : Config} {secret_name p : String} {env : Env}
    (aw : AwsWorld) (zw : AzureWorld)
    (hn : cfgGet cfg "SECRET_NAME" = some secret_name)
    (hpv : cfgGet cfg "SECRET_PROVIDER" = none)
    (hid : identify_provider env = Except.ok p) :
    init_secret_manager env aw zw cfg =
      (if p = "aws" then Except.ok (fetch_aws_secrets aw cfg secret_name)
       else if p = "azure" then Except.ok (fetch_azure_secrets zw cfg)
       else Except.ok cfg) := by
  simp [init_secret_manager, hn, hpv, hid]

theorem init_inferred_error {cfg : Config} {secret_name e : String} {env : Env}
    (aw : AwsWorld) (zw : AzureWorld)
    (hn : cfgGet cfg "SECRET_NAME" = some secret_name)
    (hpv : cfgGet cfg "SECRET_PROVIDER" = none)
    (hid : identify_provider env = Except.error e) :
    init_secret_manager env aw zw cfg = Except.error e := by
  simp [init_secret_manager, hn, hpv, hid]

/-- When provider resolution cannot fail (no container, an explicit override,
or a detectable environment), the orchestrator returns normally, with the
effect of exactly one of: no fetch, the AWS fetch, the Azure fetch. -/
theorem init_ok_cases (env : Env) (aw : AwsWorld) (zw : AzureWorld)
    (cfg : Config)
    (h : cfgGet cfg "SECRET_NAME" = none ∨
         (∃ p, cfgGet cfg "SECRET_PROVIDER" = some p) ∨
         (∃ p, identify_provider env = Except.ok p)) :
    init_secret_manager env aw zw cfg = Except.ok cfg ∨
    (∃ secret_name, cfgGet cfg "SECRET_NAME" = some secret_name ∧
      init_secret_manager env aw zw cfg =
        Except.ok (fetch_aws_secrets aw cfg secret_name)) ∨
    init_secret_manager env aw zw cfg =
      Except.ok (fetch_azure_secrets zw cfg) := by
  cases hn : cfgGet cfg "SECRET_NAME" with
  | none => exact Or.inl (init_no_name env aw zw hn)
  | some secret_name =>
    have hdisp : ∃ p, init_secret_manager env aw zw cfg =
        (if p = "aws" then Except.ok (fetch_aws_secrets aw cfg secret_name)
         else if p = "azure" then Except.ok (fetch_azure_secrets zw cfg)
         else Except.ok cfg) := by
      cases hpv : cfgGet cfg "SECRET_PROVIDER" with
      | some q => exact ⟨q, init_with_provider env aw zw hn hpv⟩
      | none =>
        rcases h with h | ⟨p, hp⟩ | ⟨p, hid⟩
        · rw [hn] at h; cases h
        · rw [hpv] at hp; cases hp
        · exact ⟨p, init_inferred aw zw hn hpv hid⟩
    obtain ⟨p, hd⟩ := hdisp
    by_cases ha : p = "aws"
    · rw [ha, if_pos rfl] at hd
      exact Or.inr (Or.inl ⟨secret_name, rfl, hd⟩)
    · by_cases hz : p = "azure"
      · rw [if_neg ha, hz, if_pos rfl] at hd
        exact Or.inr (Or.inr hd)
      · rw [if_neg ha, if_neg hz] at hd
        exact Or.inl hd

/-- Whenever the orchestrator returns normally, the resulting configuration
is the caller's configuration, or the AWS fetch or Azure fetch applied to
it. -/
theorem init_ok_shape (env : Env) (aw : AwsWorld) (zw : AzureWorld)
    (cfg cfg' : Config)
    (h : init_secret_manager env aw zw cfg = Except.ok cfg') :
    cfg' = cfg ∨
    (∃ secret_name, cfg' = fetch_aws_secrets aw cfg secret_name) ∨
    cfg' = fetch_azure_secrets zw cfg := by
  cases hn : cfgGet cfg "SECRET_NAME" with
  | none =>
    have h0 := (@init_no_name cfg env aw zw hn).symm.trans h
    exact Or.inl (Except.ok.inj h0).symm
  | some secret_name =>
    have hdisp : ∃ p, init_secret_manager env aw zw cfg =
        (if p = "aws" then Except.ok (fetch_aws_secrets aw cfg secret_name)
         else if p = "azure" then Except.ok (fetch_azure_secrets zw cfg)
         else Except.ok cfg) := by
      cases hpv : cfgGet cfg "SECRET_PROVIDER" with
      | some q => exact ⟨q, init_with_provider env aw zw hn hpv⟩
      | none =>
        cases hid : identify_provider env with
        | error e =>
          rw [init_inferred_error aw zw hn hpv hid] at h
          cases h
        | ok p => exact ⟨p, init_inferred aw zw hn hpv hid⟩
    obtain ⟨p, hd⟩ := hdisp
    rw [hd] at h
    by_cases ha : p = "aws"
    · rw [ha, if_pos rfl] at h
      exact Or.inr (Or.inl ⟨secret_name, (Except.ok.inj h).symm⟩)
    · by_cases hz : p = "azure"
      · rw [if_neg ha, hz, if_pos rfl] at h
        exact Or.inr (Or.inr (Except.ok.inj h).symm)
      · rw [if_neg ha, if_neg hz] at h
        exact Or.inl (Except.ok.inj h).symm

/-! ### The Azure loop under a consistent vault -/

/-- When every listed secret with a truthy name fetches successfully to the
value given by the oracle `f`, the Azure loop preserves any binding that
already agrees with `f`. -/
theorem azure_merge_loop_keeps_consistent (w : AzureWorld) (f : String → String) :
    ∀ (props : List SecretProperties),
      (∀ p ∈ props, ∀ n, p.name = some n → n ≠ "" →
        w.getSecret n = Except.ok ⟨some n, some (f n)⟩) →
      ∀ (cfg : Config) (k : String), cfgGet cfg k = some (f k) →
        cfgGet (azure_merge_loop w cfg props) k = some (f k) := by
  intro props
  induction props with
  | nil => intro _ cfg k h; exact h
  | cons prop rest ih =>
    intro hcons cfg k hk
    have hrest := fun p hp => hcons p (List.mem_cons_of_mem _ hp)
    cases hn : prop.name with
    | none => rw [azure_merge_loop_cons_noname hn]; exact ih hrest cfg k hk
    | some n =>
      by_cases hne : n = ""
      · rw [azure_merge_loop_cons_emptyname (by rw [hn, hne])]
        exact ih hrest cfg k hk
      · have hg := hcons prop (List.mem_cons_self _ _) n hn hne
        rw [azure_merge_loop_cons_write hn hne hg rfl hne rfl]
        by_cases hkn : k = n
        · subst hkn
          exact ih hrest _ k (by rw [cfgGet_cfgSet_self])
        · exact ih hrest _ k (by rw [cfgGet_cfgSet_ne _ _ _ _ hkn]; exact hk)

/-- When every listed secret with a truthy name fetches successfully to the
value given by the oracle `f`, the Azure loop writes every such secret. -/
theorem azure_merge_loop_writes_consistent (w : AzureWorld) (f : String → String) :
    ∀ (props : List SecretProperties),
      (∀ p ∈ props, ∀ n, p.name = some n → n ≠ "" →
        w.getSecret n = Except.ok ⟨some n, some (f n)⟩) →
      ∀ p ∈ props, ∀ n, p.name = some n → n ≠ "" →
        ∀ cfg : Config, cfgGet (azure_merge_loop w cfg props) n = some (f n) := by
  intro props
  induction props with
  | nil => intro _ p hp; cases hp
  | cons prop rest ih =>
    intro hcons p hp n hpn hne cfg
    have hrest := fun q hq => hcons q (List.mem_cons_of_mem _ hq)
    rcases List.mem_cons.mp hp with hp | hp
    · subst hp
      have hg := hcons p (List.mem_cons_self _ _) n hpn hne
      rw [azure_merge_loop_cons_write hpn hne hg rfl hne rfl]
      exact azure_merge_loop_keeps_consistent w f rest hrest _ n
        (cfgGet_cfgSet_self cfg n (f n))
    · cases hn : prop.name with
      | none =>
        rw [azure_merge_loop_cons_noname hn]
        exact ih hrest p hp n hpn hne cfg
      | some m =>
        by_cases hme : m = ""
        · rw [azure_merge_loop_cons_emptyname (by rw [hn, hme])]
          exact ih hrest p hp n hpn hne cfg
        · have hg := hcons prop (List.mem_cons_self _ _) m hn hme
          rw [azure_merge_loop_cons_write hn hme hg rfl hme rfl]
          exact ih hrest p hp n hpn hne _

/-! ### The claims -/

/-- C1: Fault isolation.  Whenever provider resolution cannot fail (no
container configured, an explicit override present, or a marker detectable),
then for every behavior of the provider SDKs — every network error, auth
error, malformed JSON payload or missing import is a fault outcome of the
worlds `aw`, `zw` — `init_secret_manager` returns normally, and the
configuration afterward is the input configuration extended by exactly the
entries that were successfully merged before any fault (possibly none), with
every key outside those entries unchanged. -/
theorem C1_fault_isolation (env : Env) (aw : AwsWorld) (zw : AzureWorld)
    (cfg : Config)
    (h : cfgGet cfg "SECRET_NAME" = none ∨
         (∃ p, cfgGet cfg "SECRET_PROVIDER" = some p) ∨
         (∃ p, identify_provider env = Except.ok p)) :
    ∃ pairs : List (String × String),
      init_secret_manager env aw zw cfg = Except.ok (mergeAll cfg pairs) ∧
      ∀ k, k ∉ pairs.map Prod.fst →
        cfgGet (mergeAll cfg pairs) k = cfgGet cfg k := by
  rcases init_ok_cases env aw zw cfg h with h0 | ⟨sn, _, h1⟩ | h2
  · exact ⟨[], by rw [h0, mergeAll_nil], fun k _ => by rw [mergeAll_nil]⟩
  · obtain ⟨pairs, hp⟩ := fetch_aws_exists_mergeAll aw cfg sn
    exact ⟨pairs, by rw [h1, hp],
      fun k hk => mergeAll_get_of_not_mem pairs cfg k hk⟩
  · obtain ⟨pairs, hp⟩ := fetch_azure_exists_mergeAll zw cfg
    exact ⟨pairs, by rw [h2, hp],
      fun k hk => mergeAll_get_of_not_mem pairs cfg k hk⟩

/-- C1 witness: an Azure run whose second per-secret fetch raises still
returns normally, keeping the entries merged before the fault. -/
theorem C1_fault_isolation_witness :
    ∃ pairs : List (String × String),
      init_secret_manager envBoth deadAws haltAzure cfgVaultAzure =
        Except.ok (mergeAll cfgVaultAzure pairs) ∧
      ∀ k, k ∉ pairs.map Prod.fst →
        cfgGet (mergeAll cfgVaultAzure pairs) k = cfgGet cfgVaultAzure k :=
  C1_fault_isolation envBoth deadAws haltAzure cfgVaultAzure
    (Or.inr (Or.inl ⟨"azure", by decide⟩))

/-- C2: No-op when unconfigured.  For every configuration lacking the
`SECRET_NAME` key, `init_secret_manager` returns normally with the
configuration unchanged, for every environment and every SDK behavior (so no
resolution and no fetch can have taken place). -/
theorem C2_noop_when_unconfigured (env : Env) (aw : AwsWorld)
    (zw : AzureWorld) (cfg : Config)
    (h : cfgGet cfg "SECRET_NAME" = none) :
    init_secret_manager env aw zw cfg = Except.ok cfg :=
  init_no_name env aw zw h

/-- C2 witness: a configuration with an unrelated key only. -/
theorem C2_noop_when_unconfigured_witness :
    init_secret_manager envBoth deadAws haltAzure cfgPlain =
      Except.ok cfgPlain :=
  C2_noop_when_unconfigured envBoth deadAws haltAzure cfgPlain (by decide)

/-- C3: AWS merge correctness.  If the `get_secret_value` response carries a
truthy string payload that parses to the JSON object with entries A=1 and
B=2, the configuration after the AWS fetcher holds A=1 and B=2, whatever
values it held under those keys before. -/
theorem C3_aws_merge_correctness (w : AwsWorld) (cfg : Config)
    (secret_name s : String) (resp : AwsResponse)
    (hi : w.importOk = true) (hc : w.clientOk = true)
    (hg : w.getSecretValue secret_name = Except.ok resp)
    (hss : resp.secretString = some s) (hs : s ≠ "")
    (hp : w.parseJson s = Except.ok [("A", "1"), ("B", "2")]) :
    cfgGet (fetch_aws_secrets w cfg secret_name) "A" = some "1" ∧
    cfgGet (fetch_aws_secrets w cfg secret_name) "B" = some "2" := by
  rw [fetch_aws_merges hi hc hg hss hs hp,
    show mergeAll cfg [("A", "1"), ("B", "2")] =
      cfgSet (cfgSet cfg "A" "1") "B" "2" from rfl]
  exact ⟨by rw [cfgGet_cfgSet_ne _ _ _ _ (by decide), cfgGet_cfgSet_self],
    cfgGet_cfgSet_self _ _ _⟩

/-- C3 witness: the delivered pairs overwrite a stale prior value of A. -/
theorem C3_aws_merge_correctness_witness :
    cfgGet (fetch_aws_secrets jsonAws [("A", "0")] "sid") "A" = some "1" ∧
    cfgGet (fetch_aws_secrets jsonAws [("A", "0")] "sid") "B" = some "2" :=
  C3_aws_merge_correctness jsonAws [("A", "0")] "sid" "payload"
    ⟨some "payload"⟩ rfl rfl rfl rfl (by decide) (by simp [jsonAws])

/-- C4: Azure enumeration.  When the vault listing succeeds and every listed
secret with a truthy name fetches successfully, with matching name and the
non-null value given by the oracle `f` (in the claim's instance the listing
is x, y with values 1, 2), then after the Azure fetcher every such listed
secret name holds its fetched value in the configuration. -/
theorem C4_azure_enumeration (w : AzureWorld) (cfg : Config)
    (f : String → String) (props : List SecretProperties)
    (key_vault_name : String)
    (hi : w.importOk = true) (hc : w.clientOk = true)
    (hl : w.listSecrets = Except.ok props)
    (hcons : ∀ p ∈ props, ∀ n, p.name = some n → n ≠ "" →
      w.getSecret n = Except.ok ⟨some n, some (f n)⟩)
    (hname : cfgGet cfg "SECRET_NAME" = some key_vault_name)
    (hkvn : key_vault_name ≠ "") :
    ∀ p ∈ props, ∀ n, p.name = some n → n ≠ "" →
      cfgGet (fetch_azure_secrets w cfg) n = some (f n) := by
  have hf : fetch_azure_secrets w cfg = azure_merge_loop w cfg props := by
    simp [fetch_azure_secrets, hi, hname, hkvn, hc, hl]
  rw [hf]
  exact fun p hp n hn hne =>
    azure_merge_loop_writes_consistent w f props hcons p hp n hn hne cfg

/-- C4 witness: the two-secret vault listing x, y with values 1, 2. -/
theorem C4_azure_enumeration_witness :
    cfgGet (fetch_azure_secrets xyAzure cfgVaultOnly) "x" = some "1" ∧
    cfgGet (fetch_azure_secrets xyAzure cfgVaultOnly) "y" = some "2" := by
  have hcons : ∀ p ∈ [(⟨some "x"⟩ : SecretProperties), ⟨some "y"⟩],
      ∀ n, p.name = some n → n ≠ "" →
      xyAzure.getSecret n = Except.ok ⟨some n, some (fxy n)⟩ := by
    intro p hp n hn hne
    rcases List.mem_cons.mp hp with hp | hp
    · subst hp
      cases hn
      simp [xyAzure, fxy]
    · rcases List.mem_singleton.mp hp with rfl
      cases hn
      simp [xyAzure, fxy]
  have h := C4_azure_enumeration xyAzure cfgVaultOnly fxy
    [⟨some "x"⟩, ⟨some "y"⟩] "vault" rfl rfl rfl hcons (by decide) (by decide)
  have hx := h ⟨some "x"⟩ (by simp) "x" rfl (by decide)
  have hy := h ⟨some "y"⟩ (by simp) "y" rfl (by decide)
  rw [show fxy "x" = "1" from rfl] at hx
  rw [show fxy "y" = "2" from rfl] at hy
  exact ⟨hx, hy⟩

/-- C5: Undetectable provider.  For every environment with neither the
`LAMBDA_TASK_ROOT` nor the `WEBSITE_INSTANCE_ID` marker set, the resolver
raises the provider-undetectable `ValueError`, and whenever a container is
configured without an explicit provider override, that error propagates out
of `init_secret_manager` to its caller. -/
theorem C5_undetectable_provider (env : Env)
    (haws : env "LAMBDA_TASK_ROOT" = none)
    (hazure : env "WEBSITE_INSTANCE_ID" = none) :
    identify_provider env = Except.error
      "Unable to identify the cloud provider to fetch the credentials" ∧
    ∀ (aw : AwsWorld) (zw : AzureWorld) (cfg : Config) (secret_name : String),
      cfgGet cfg "SECRET_NAME" = some secret_name →
      cfgGet cfg "SECRET_PROVIDER" = none →
      init_secret_manager env aw zw cfg = Except.error
        "Unable to identify the cloud provider to fetch the credentials" := by
  have hid : identify_provider env = Except.error
      "Unable to identify the cloud provider to fetch the credentials" := by
    simp [identify_provider, haws, hazure]
  exact ⟨hid, fun aw zw cfg sn hn hpv => init_inferred_error aw zw hn hpv hid⟩

/-- C5 witness: the empty environment and a vault-only configuration. -/
theorem C5_undetectable_provider_witness :
    identify_provider envNone = Except.error
      "Unable to identify the cloud provider to fetch the credentials" ∧
    init_secret_manager envNone deadAws haltAzure cfgVaultOnly = Except.error
      "Unable to identify the cloud provider to fetch the credentials" := by
  have h := C5_undetectable_provider envNone rfl rfl
  exact ⟨h.1, h.2 deadAws haltAzure cfgVaultOnly "vault" (by decide) (by decide)⟩

/-- C6: Provider precedence.  Whenever `SECRET_PROVIDER` is present, the
orchestrator's outcome does not depend on the environment at all, and it
dispatches on the override value: the AWS fetch for aws, the Azure fetch for
azure, no fetch otherwise. -/
theorem C6_provider_precedence (env : Env) (aw : AwsWorld) (zw : AzureWorld)
    (cfg : Config) (p : String)
    (hp : cfgGet cfg "SECRET_PROVIDER" = some p) :
    (∀ env' : Env,
      init_secret_manager env' aw zw cfg = init_secret_manager env aw zw cfg) ∧
    (∀ secret_name, cfgGet cfg "SECRET_NAME" = some secret_name →
      init_secret_manager env aw zw cfg =
        (if p = "aws" then Except.ok (fetch_aws_secrets aw cfg secret_name)
         else if p = "azure" then Except.ok (fetch_azure_secrets zw cfg)
         else Except.ok cfg)) := by
  constructor
  · intro env'
    cases hn : cfgGet cfg "SECRET_NAME" with
    | none => rw [init_no_name env' aw zw hn, init_no_name env aw zw hn]
    | some sn =>
      rw [init_with_provider env' aw zw hn hp, init_with_provider env aw zw hn hp]
  · intro sn hn
    exact init_with_provider env aw zw hn hp

/-- C6 witness: with both markers set and override azure, the run matches
the markerless run and performs the Azure fetch. -/
theorem C6_provider_precedence_witness :
    init_secret_manager envNone deadAws haltAzure cfgVaultAzure =
      init_secret_manager envBoth deadAws haltAzure cfgVaultAzure ∧
    init_secret_manager envBoth deadAws haltAzure cfgVaultAzure =
      Except.ok (fetch_azure_secrets haltAzure cfgVaultAzure) := by
  have h := C6_provider_precedence envBoth deadAws haltAzure cfgVaultAzure
    "azure" (by decide)
  have h2 := h.2 "vault" (by decide)
  rw [if_neg (by decide), if_pos rfl] at h2
  exact ⟨h.1 envNone, h2⟩

/-- C7: AWS tie-break.  For every environment with both marker variables
set, the resolver returns aws: the first-checked AWS marker wins. -/
theorem C7_aws_tiebreak (env : Env)
    (haws : (env "LAMBDA_TASK_ROOT").isSome = true)
    (_hazure : (env "WEBSITE_INSTANCE_ID").isSome = true) :
    identify_provider env = Except.ok "aws" := by
  simp [identify_provider, haws]

/-- C7 witness: the everything-set environment. -/
theorem C7_aws_tiebreak_witness :
    identify_provider envBoth = Except.ok "aws" :=
  C7_aws_tiebreak envBoth rfl rfl

/-- C8: Unrecognized provider fallthrough.  For every configured provider
override other than aws and azure, `init_secret_manager` performs no fetch,
raises nothing and returns normally with the configuration unchanged,
whatever the environment and SDK behaviors. -/
theorem C8_unrecognized_provider (env : Env) (aw : AwsWorld) (zw : AzureWorld)
    (cfg : Config) (p : String)
    (hp : cfgGet cfg "SECRET_PROVIDER" = some p)
    (ha : p ≠ "aws") (hz : p ≠ "azure") :
    init_secret_manager env aw zw cfg = Except.ok cfg := by
  cases hn : cfgGet cfg "SECRET_NAME" with
  | none => exact init_no_name env aw zw hn
  | some sn =>
    rw [init_with_provider env aw zw hn hp, if_neg ha, if_neg hz]

/-- C8 witness: the override value gcp. -/
theorem C8_unrecognized_provider_witness :
    init_secret_manager envBoth deadAws haltAzure cfgGcp =
      Except.ok cfgGcp :=
  C8_unrecognized_provider envBoth deadAws haltAzure cfgGcp "gcp"
    (by decide) (by decide) (by decide)

/-- C9: Empty-string container name is configured, not absent.  When
`SECRET_NAME` is present and empty, the orchestrator does not take the early
return (the guard tests only for `None`): under provider aws it invokes the
AWS fetch with the empty string as the secret id, while under provider azure
the Azure fetcher — which re-reads the name and rejects every falsy value —
returns with the configuration untouched. -/
theorem C9_empty_secret_name (env : Env) (aw : AwsWorld) (zw : AzureWorld)
    (cfg : Config) (h : cfgGet cfg "SECRET_NAME" = some "") :
    (cfgGet cfg "SECRET_PROVIDER" = some "aws" →
      init_secret_manager env aw zw cfg =
        Except.ok (fetch_aws_secrets aw cfg "")) ∧
    (cfgGet cfg "SECRET_PROVIDER" = some "azure" →
      init_secret_manager env aw zw cfg =
        Except.ok (fetch_azure_secrets zw cfg) ∧
      fetch_azure_secrets zw cfg = cfg) := by
  constructor
  · intro hp
    rw [init_with_provider env aw zw h hp, if_pos rfl]
  · intro hp
    have hz : fetch_azure_secrets zw cfg = cfg := by
      by_cases hi : zw.importOk
      · simp [fetch_azure_secrets, hi, h]
      · simp [fetch_azure_secrets, hi]
    refine ⟨?_, hz⟩
    rw [init_with_provider env aw zw h hp, if_neg (by decide), if_pos rfl]

/-- C9 witness: both dispatch outcomes on empty-name configurations. -/
theorem C9_empty_secret_name_witness :
    init_secret_manager envNone jsonAws haltAzure cfgEmptyAws =
      Except.ok (fetch_aws_secrets jsonAws cfgEmptyAws "") ∧
    (init_secret_manager envNone jsonAws haltAzure cfgEmptyAzure =
      Except.ok (fetch_azure_secrets haltAzure cfgEmptyAzure) ∧
     fetch_azure_secrets haltAzure cfgEmptyAzure = cfgEmptyAzure) :=
  ⟨(C9_empty_secret_name envNone jsonAws haltAzure cfgEmptyAws
      (by decide)).1 (by decide),
   (C9_empty_secret_name envNone jsonAws haltAzure cfgEmptyAzure
      (by decide)).2 (by decide)⟩

/-- C10: Frame property of the merge.  Whenever `init_secret_manager`
returns normally, every key that is not a secret name delivered by a
provider response keeps exactly its prior value, and no key is ever
deleted. -/
theorem C10_merge_frame (env : Env) (aw : AwsWorld) (zw : AzureWorld)
    (cfg cfg' : Config)
    (h : init_secret_manager env aw zw cfg = Except.ok cfg') :
    (∀ k, (∀ sn, ¬ awsDeliveredKey aw sn k) → ¬ azureDeliveredKey zw k →
      cfgGet cfg' k = cfgGet cfg k) ∧
    (∀ k, (cfgGet cfg k).isSome = true → (cfgGet cfg' k).isSome = true) := by
  rcases init_ok_shape env aw zw cfg cfg' h with h0 | ⟨sn, h1⟩ | h2
  · subst h0
    exact ⟨fun k _ _ => rfl, fun k hk => hk⟩
  · subst h1
    exact ⟨fun k hka _ => fetch_aws_get_of_not_delivered aw cfg sn k (hka sn),
      fun k hk => fetch_aws_isSome aw cfg sn k hk⟩
  · subst h2
    exact ⟨fun k _ hkz => fetch_azure_get_of_not_delivered zw cfg k hkz,
      fun k hk => fetch_azure_isSome zw cfg k hk⟩

/-- C10 witness: in an Azure run that delivers x and y, the unrelated key
keeps its value and the configured keys survive. -/
theorem C10_merge_frame_witness :
    cfgGet (fetch_azure_secrets xyAzure cfgOther) "other" = some "keep" ∧
    (cfgGet (fetch_azure_secrets xyAzure cfgOther) "SECRET_NAME").isSome
      = true := by
  have hinit : init_secret_manager envNone deadAws xyAzure cfgOther =
      Except.ok (fetch_azure_secrets xyAzure cfgOther) := by
    rw [@init_with_provider cfgOther "vault" "azure" envNone deadAws xyAzure
      (by decide) (by decide), if_neg (by decide), if_pos rfl]
  have h := C10_merge_frame envNone deadAws xyAzure cfgOther _ hinit
  have hka : ∀ sn, ¬ awsDeliveredKey deadAws sn "other" := by
    rintro sn ⟨resp, s, pairs, v, hg, -, -, -⟩
    simp [deadAws] at hg
  have hkz : ¬ azureDeliveredKey xyAzure "other" := by
    rintro ⟨n, secret, v, hg, hname, -⟩
    by_cases hx : n = "x"
    · subst hx
      have hsec : secret = ⟨some "x", some "1"⟩ :=
        Except.ok.inj (hg.symm.trans (show xyAzure.getSecret "x" =
          Except.ok ⟨some "x", some "1"⟩ from rfl))
      rw [hsec] at hname
      exact absurd (Option.some.inj hname) (by decide)
    · by_cases hy : n = "y"
      · subst hy
        have hsec : secret = ⟨some "y", some "2"⟩ :=
          Except.ok.inj (hg.symm.trans (show xyAzure.getSecret "y" =
            Except.ok ⟨some "y", some "2"⟩ from rfl))
        rw [hsec] at hname
        exact absurd (Option.some.inj hname) (by decide)
      · simp [xyAzure, hx, hy] at hg
  have hother := h.1 "other" hka hkz
  rw [hother]
  exact ⟨by decide, h.2 "SECRET_NAME" (by decide)⟩

end SecretsPlugin
